import Mathlib

/-!
Verification development for the `jusawi` image-browser repository.

The embedded components, translated from the Python source:

* `src/utils/cache_manager.py` — `CacheManager`: md5-based content
  fingerprinting, an in-memory cache dictionary, and lazy flushing to a
  durable JSON file.
* `src/utils/ai_analyzer.py` — `AIImageAnalyzer.analyze_image`: the external
  analysis call, which catches every internal failure and returns an error
  result instead of raising.
* `src/gui/photo_viewer.py` — the debounced analysis scheduler:
  `load_image`, `_cancel_analysis_timer`, `_schedule_smart_analysis`,
  `_delayed_analysis_start`, `_auto_ai_analysis`.

Python exceptions are modelled with `Except String`; a `try/except` block in
the source becomes `pyTry`.  Machine-word arithmetic inside md5 is `Nat`
arithmetic taken `% 2^32` exactly where the 32-bit registers overflow.
-/

/-! ## Word-level helpers for md5 (RFC 1321), used by `CacheManager._get_file_hash` -/

/-- Reduce a natural number to a 32-bit word, as md5's registers wrap. -/
def w32 (n : Nat) : Nat := n % 4294967296

/-- Left rotation (32-bit) of a word `x < 2^32` by `s` bits. -/
def rotl32 (x s : Nat) : Nat :=
  w32 (Nat.lor (Nat.shiftLeft x s) (Nat.shiftRight x (32 - s)))

/-- Bitwise complement within 32 bits. -/
def not32 (x : Nat) : Nat := Nat.xor x 4294967295

/-- Little-endian byte decomposition of `n` into `k` bytes. -/
def leBytes : Nat → Nat → List Nat
  | _, 0 => []
  | n, k + 1 => (n % 256) :: leBytes (n / 256) k

/-- The md5 sine-derived round constants K[0..63]. -/
def md5K : List Nat :=
  [3614090360, 3905402710, 606105819, 3250441966,
   4118548399, 1200080426, 2821735955, 4249261313,
   1770035416, 2336552879, 4294925233, 2304563134,
   1804603682, 4254626195, 2792965006, 1236535329,
   4129170786, 3225465664, 643717713, 3921069994,
   3593408605, 38016083, 3634488961, 3889429448,
   568446438, 3275163606, 4107603335, 1163531501,
   2850285829, 4243563512, 1735328473, 2368359562,
   4294588738, 2272392833, 1839030562, 4259657740,
   2763975236, 1272893353, 4139469664, 3200236656,
   681279174, 3936430074, 3572445317, 76029189,
   3654602809, 3873151461, 530742520, 3299628645,
   4096336452, 1126891415, 2878612391, 4237533241,
   1700485571, 2399980690, 4293915773, 2240044497,
   1873313359, 4264355552, 2734768916, 1309151649,
   4149444226, 3174756917, 718787259, 3951481745]

/-- The md5 per-round left-rotation amounts s[0..63]. -/
def md5S : List Nat :=
  [7, 12, 17, 22, 7, 12, 17, 22, 7, 12, 17, 22, 7, 12, 17, 22,
   5, 9, 14, 20, 5, 9, 14, 20, 5, 9, 14, 20, 5, 9, 14, 20,
   4, 11, 16, 23, 4, 11, 16, 23, 4, 11, 16, 23, 4, 11, 16, 23,
   6, 10, 15, 21, 6, 10, 15, 21, 6, 10, 15, 21, 6, 10, 15, 21]

/-- md5 padding: append `0x80`, zero bytes until the length is 56 mod 64,
then the 8-byte little-endian bit length. -/
def md5pad (msg : List Nat) : List Nat :=
  let len := msg.length
  let z := (119 - len % 64) % 64
  msg ++ [128] ++ List.replicate z 0 ++ leBytes (len * 8 % 18446744073709551616) 8

/-- Group a byte list into little-endian 32-bit words, four bytes at a time. -/
def toWordsLE : List Nat → List Nat
  | b0 :: b1 :: b2 :: b3 :: rest =>
      (b0 + 256 * b1 + 65536 * b2 + 16777216 * b3) :: toWordsLE rest
  | _ => []

/-- One md5 round: state `(a, b, c, d)`, round index `i`, message words `m`. -/
def md5Round (st : Nat × Nat × Nat × Nat) (i : Nat) (m : List Nat) :
    Nat × Nat × Nat × Nat :=
  let (a, b, c, d) := st
  let (f, g) :=
    if i < 16 then (Nat.lor (Nat.land b c) (Nat.land (not32 b) d), i)
    else if i < 32 then (Nat.lor (Nat.land d b) (Nat.land (not32 d) c), (5 * i + 1) % 16)
    else if i < 48 then (Nat.xor (Nat.xor b c) d, (3 * i + 5) % 16)
    else (Nat.xor c (Nat.lor b (not32 d)), (7 * i) % 16)
  let f' := w32 (f + a + md5K.getD i 0 + m.getD g 0)
  (d, w32 (b + rotl32 f' (md5S.getD i 0)), b, c)

/-- Process one 16-word chunk, starting from register state `st`. -/
def md5Chunk (st : Nat × Nat × Nat × Nat) (m : List Nat) : Nat × Nat × Nat × Nat :=
  let (a0, b0, c0, d0) := st
  let (a, b, c, d) := (List.range 64).foldl (fun acc i => md5Round acc i m) st
  (w32 (a0 + a), w32 (b0 + b), w32 (c0 + c), w32 (d0 + d))

/-- Split a word list into 16-word chunks; `fuel` bounds the recursion. -/
def chunks16 : Nat → List Nat → List (List Nat)
  | 0, _ => []
  | _, [] => []
  | fuel + 1, l => l.take 16 :: chunks16 fuel (l.drop 16)

/-- md5 digest of a byte list, as the 16 output bytes. -/
def md5bytes (msg : List Nat) : List Nat :=
  let ws := toWordsLE (md5pad msg)
  let (a, b, c, d) :=
    (chunks16 ws.length ws).foldl md5Chunk (1732584193, 4023233417, 2562383102, 271733878)
  leBytes a 4 ++ leBytes b 4 ++ leBytes c 4 ++ leBytes d 4

/-- Lower-case hex digit for `n < 16`. -/
def hexDigit (n : Nat) : Char :=
  if n < 10 then Char.ofNat (48 + n) else Char.ofNat (87 + n)

/-- Two-digit lower-case hex rendering of a byte. -/
def byteHex (b : Nat) : List Char := [hexDigit (b / 16), hexDigit (b % 16)]

/-- Model of `hashlib.md5(x).hexdigest()`: lower-case 32-character hex string. -/
def md5hex (msg : List Nat) : String :=
  String.mk ((md5bytes msg).map byteHex).flatten

/-- UTF-8 encoding of a single code point, as `str.encode()` produces. -/
def utf8Char (c : Nat) : List Nat :=
  if c < 128 then [c]
  else if c < 2048 then [192 + c / 64, 128 + c % 64]
  else if c < 65536 then [224 + c / 4096, 128 + c / 64 % 64, 128 + c % 64]
  else [240 + c / 262144, 128 + c / 4096 % 64, 128 + c / 64 % 64, 128 + c % 64]

/-- Model of `str.encode()`: UTF-8 bytes of a string. -/
def utf8 (s : String) : List Nat := (s.data.map (fun ch => utf8Char ch.toNat)).flatten

/-! ## Filesystem model

`os.stat` is the only fallible primitive the cache manager touches.  A file's
stat is modelled by its byte size and the decimal rendering of `st_mtime`
(the float's textual form; the cache code only ever interpolates it into a
string, so its numeric type is irrelevant to the embedding). -/

/-- Result of a successful `os.stat`: `st_size` and the textual form of
`st_mtime` as the f-string in `_get_file_hash` renders it. -/
structure FileStat where
  size : Nat
  mtime : String
  deriving DecidableEq, Repr

/-- The filesystem as the scheduler and cache see it.  `statOf p = none`
means `os.stat(p)` raises `OSError`.  The three booleans summarise what
`ExifReader.read_exif` yields for `p`: whether any of
`ExposureTime`/`FNumber`/`ISO` is present, whether `GPSInfo` is present, and
whether `Image.open` succeeds. -/
structure FS where
  statOf : String → Option FileStat
  hasExifCam : String → Bool
  hasExifGPS : String → Bool
  openOk : String → Bool

/-- Model of `os.stat(p)`: returns the stat or raises. -/
def os_stat (fs : FS) (p : String) : Except String FileStat :=
  match fs.statOf p with
  | some st => Except.ok st
  | none => Except.error ("OSError: stat " ++ p)

/-- Python `try/except Exception` around a computation: the handler receives
the exception message. -/
def pyTry {α : Type} (x : Except String α) (handler : String → Except String α) :
    Except String α :=
  match x with
  | Except.ok v => Except.ok v
  | Except.error e => handler e

/-- Model of `os.path.basename`: the component after the last slash. -/
def basename (p : String) : String := (p.splitOn "/").getLastD ""

/-! ## Data model: analysis results and cache entries -/

/-- The analysis-result dictionary produced by `AIImageAnalyzer.analyze_image`
(`hashtags`, `camera_settings`, `location`, optional `error`).  The two inner
dictionaries are uninterpreted key/value maps; the cache never looks inside
them. -/
structure AnalysisResult where
  hashtags : List String
  camera_settings : List (String × String)
  location : List (String × String)
  error : Option String
  deriving DecidableEq, Repr

/-- The entry `CacheManager.save_result` builds at lines 83–89. -/
structure CacheEntry where
  file_path : String
  file_name : String
  result : AnalysisResult
  timestamp : String
  version : String
  deriving DecidableEq, Repr

/-- Content of the durable cache file `ai_analysis_cache.json`: absent,
deserialisable into an entry map, or present but malformed (any content on
which `json.load` or the subsequent `dict.update` raises). -/
inductive FileContent where
  | missing : FileContent
  | wellFormed : List (String × CacheEntry) → FileContent
  | corrupt : String → FileContent
  deriving DecidableEq, Repr

/-- Lookup in a Python dict modelled as an insertion-ordered association
list with unique keys. -/
def dictGet (m : List (String × CacheEntry)) (k : String) : Option CacheEntry :=
  match m.find? (fun kv => kv.1 == k) with
  | some kv => some kv.2
  | none => none

/-- Assignment `d[k] = v` on a Python dict: overwrite in place if the key exists, else
append (insertion order preserved). -/
def dictInsert (m : List (String × CacheEntry)) (k : String) (v : CacheEntry) :
    List (String × CacheEntry) :=
  if m.any (fun kv => kv.1 == k) then
    m.map (fun kv => if kv.1 == k then (k, v) else kv)
  else
    m ++ [(k, v)]

/-! ## CacheManager (`src/utils/cache_manager.py`) -/

/-- State of a `CacheManager`: the in-memory dict, the durable file, and a
ghost counter of `_save_cache` invocations used only to state flushing
properties. -/
structure CacheManager where
  memory_cache : List (String × CacheEntry)
  durable : FileContent
  flushes : Nat
  deriving DecidableEq, Repr

/-- Embedding of `_load_cache` (lines 30–42): read the durable file into memory; a missing
file or any deserialisation failure leaves the memory cache empty — the
`except` clause catches everything. -/
def load_cache_mem (content : FileContent) : List (String × CacheEntry) :=
  match content with
  | FileContent.missing => []
  | FileContent.wellFormed es => es
  | FileContent.corrupt _ => []

/-- Embedding of `CacheManager.__init__` (lines 16–28) given the durable file's current
content.  It never raises: `_load_cache` recovers from every failure. -/
def cacheManager_init (content : FileContent) : Except String CacheManager :=
  Except.ok { memory_cache := load_cache_mem content, durable := content, flushes := 0 }

/-- Embedding of `_save_cache` (lines 44–51): serialise the whole memory dict to the
durable file.  The ghost `flushes` counter records the write. -/
def save_cache (cm : CacheManager) : CacheManager :=
  { cm with durable := FileContent.wellFormed cm.memory_cache, flushes := cm.flushes + 1 }

/-- The string `f"{file_path}_{stat.st_size}_{stat.st_mtime}"` hashed at
line 58 of `cache_manager.py`.  Note it uses the path string exactly as
passed, with no canonicalisation to an absolute path. -/
def hash_input (file_path : String) (st : FileStat) : String :=
  file_path ++ "_" ++ toString st.size ++ "_" ++ st.mtime

/-- Embedding of `_get_file_hash` (lines 53–62): md5 of path+size+mtime; the `except`
clause catches the stat failure and returns `None` instead of raising. -/
def get_file_hash (fs : FS) (file_path : String) : Except String (Option String) :=
  pyTry
    (do
      let st ← os_stat fs file_path
      pure (some (md5hex (utf8 (hash_input file_path st)))))
    (fun _ => pure none)

/-- Embedding of `get_cached_result` (lines 64–75): compute the fingerprint; `None`
fingerprint (falsy) means no entry; otherwise return the entry's `result`
field if the fingerprint is a key of the memory dict. -/
def get_cached_result (fs : FS) (cm : CacheManager) (file_path : String) :
    Except String (Option AnalysisResult) := do
  let file_hash ← get_file_hash fs file_path
  match file_hash with
  | none => pure none
  | some h =>
    match dictGet cm.memory_cache h with
    | some entry => pure (some entry.result)
    | none => pure none

/-- Embedding of `save_result` (lines 77–96): compute the fingerprint (bail out silently
on failure), build the entry, insert it, and flush to disk when the size of
the memory dict is a multiple of 10.  `now` is the uninterpreted rendering of
`datetime.now().isoformat()`. -/
def save_result (fs : FS) (now : String) (cm : CacheManager) (file_path : String)
    (result : AnalysisResult) : Except String CacheManager := do
  let file_hash ← get_file_hash fs file_path
  match file_hash with
  | none => pure cm
  | some h =>
    let entry : CacheEntry :=
      { file_path := file_path, file_name := basename file_path, result := result,
        timestamp := now, version := "1.0" }
    let mem := dictInsert cm.memory_cache h entry
    let cm' := { cm with memory_cache := mem }
    if mem.length % 10 == 0 then pure (save_cache cm') else pure cm'

/-- Embedding of `clear_cache` (lines 98–103): empty the memory dict and delete the
durable file. -/
def clear_cache (cm : CacheManager) : CacheManager :=
  { cm with memory_cache := [], durable := FileContent.missing }

/-! ## AIImageAnalyzer (`src/utils/ai_analyzer.py`) -/

/-- The body of the `try` block of `analyze_image` (lines 45–77): image
encoding, the network call and response parsing, abstracted as one fallible
operation from `(path, has_exif, has_location)` to a parsed result
dictionary.  `Except.error e` stands for any exception raised inside the
block (unreadable file, network failure, API error); `_parse_response` itself
never raises, so a successful call always yields a result value. -/
def ApiCall : Type := String → Bool → Bool → Except String AnalysisResult

/-- Embedding of `analyze_image` (lines 32–86): run the call; on any exception return the
error dictionary `{hashtags: [], camera_settings: {}, location: {}, error: str(e)}`
instead of raising. -/
def analyze_image (api : ApiCall) (image_path : String)
    (has_exif has_location : Bool) : AnalysisResult :=
  match api image_path has_exif has_location with
  | Except.ok r => r
  | Except.error e =>
    { hashtags := [], camera_settings := [], location := [], error := some e }

/-! ## The debounced analysis scheduler (`src/gui/photo_viewer.py`)

The GUI event loop is embedded as a state machine.  Three event kinds drive
it: a navigation event (`load_image`), the firing of a pending
`root.after` timer (`_delayed_analysis_start`), and the completion of a
background `_auto_ai_analysis` worker (the code after its `analyze_image`
call).  Tk timers are modelled as a list of pending `(id, path)` callbacks;
`root.after` allocates a fresh id, `root.after_cancel` removes the entry, and
a timer that fires is removed from the pending list.  A worker thread is
modelled by the target path it captured from `analyzing_image_path`; its
`root.after(0, ...)` UI updates are collapsed into the completion event.
`analyzeLog` is a ghost log of the paths for which the external analyzer was
actually invoked, used only to state suppression properties. -/

/-- Mutable state of `PhotoViewer` relevant to the scheduler, plus the tk
timer queue, the in-flight worker set, the cache manager, the AI-results
panel (`displayed`), and the ghost invocation log. -/
structure ViewerState where
  has_api_key : Bool
  current_image_path : Option String
  analyzing_image_path : Option String
  analysis_timer : Option Nat
  timers : List (Nat × String)
  nextTimerId : Nat
  inFlight : List String
  cache : CacheManager
  displayed : Option (String × AnalysisResult)
  analyzeLog : List String
  deriving DecidableEq, Repr

/-- Events delivered to the scheduler: a selection (`load_image p`), a tk
timer firing, and a worker finishing its `analyze_image` call. -/
inductive Event where
  | select : String → Event
  | timerFire : Nat → Event
  | complete : String → Event
  deriving DecidableEq, Repr

/-- Embedding of `_cancel_analysis_timer` (lines 560–565): if a timer handle is recorded,
`after_cancel` it (remove it from the pending queue — a no-op if it already
fired) and clear the handle. -/
def cancel_analysis_timer (s : ViewerState) : ViewerState :=
  match s.analysis_timer with
  | some tid =>
    { s with timers := s.timers.filter (fun t => t.1 ≠ tid), analysis_timer := none }
  | none => s

/-- Embedding of `_immediate_reset` (lines 315–331): clear `analyzing_image_path` and
reset every info panel (the previously displayed AI result is gone). -/
def immediate_reset (s : ViewerState) : ViewerState :=
  { s with analyzing_image_path := none, displayed := none }

/-- Embedding of `_schedule_smart_analysis` (lines 567–594): record the analysis target;
on a cache hit display the stored result at once (the result dictionary is
always non-empty, hence truthy) and arm no timer; on a miss arm a fresh
delay timer for this path.  The cache lookup cannot raise (its internal
`except` returns `None`), so the `Except.error` branch is unreachable — were
it reached, `load_image`'s own `except` would swallow it, leaving the state
as is. -/
def schedule_smart_analysis (fs : FS) (s : ViewerState) (file_path : String) :
    ViewerState :=
  let s := { s with analyzing_image_path := some file_path }
  match get_cached_result fs s.cache file_path with
  | Except.ok (some r) =>
    if s.current_image_path = some file_path then
      { s with displayed := some (file_path, r) }
    else s
  | Except.ok none =>
    { s with
      timers := s.timers ++ [(s.nextTimerId, file_path)],
      analysis_timer := some s.nextTimerId,
      nextTimerId := s.nextTimerId + 1 }
  | Except.error _ => s

/-- Embedding of `load_image` (lines 265–313): cancel the previous timer, reset panels,
set the current path, then — when the image opens, an API key is configured
and the embedded metadata is incomplete — schedule the smart analysis.  A
failing `Image.open` is caught by the surrounding `except`, after the cancel
and the assignment of `current_image_path` have already happened. -/
def load_image (fs : FS) (s : ViewerState) (file_path : String) : ViewerState :=
  let s := cancel_analysis_timer s
  let s := immediate_reset s
  let s := { s with current_image_path := some file_path }
  if fs.openOk file_path then
    let has_exif := fs.hasExifCam file_path
    let has_location := fs.hasExifGPS file_path
    if s.has_api_key then
      if !has_exif || !has_location then schedule_smart_analysis fs s file_path
      else s
    else s
  else s

/-- A pending timer with id `tid` fires: tk removes it from the queue and
runs `_delayed_analysis_start` (lines 596–608) for the path it carried.  If
the image changed, return; otherwise spawn the `_auto_ai_analysis` worker,
which captures `analyzing_image_path` (line 624), performs the same staleness
check (line 627), and — if still current — invokes the external analyzer
(logged) and becomes an in-flight completion. -/
def timer_fire (s : ViewerState) (tid : Nat) : ViewerState :=
  match s.timers.find? (fun t => t.1 == tid) with
  | none => s
  | some t =>
    let file_path := t.2
    let s := { s with timers := s.timers.filter (fun x => x.1 ≠ tid) }
    if s.current_image_path ≠ some file_path then s
    else
      match s.analyzing_image_path with
      | none => s
      | some target =>
        if some target ≠ s.current_image_path then s
        else
          { s with analyzeLog := s.analyzeLog ++ [target],
                   inFlight := s.inFlight ++ [target] }

/-- A worker for `target` finishes its `analyze_image` call: the tail of
`_auto_ai_analysis` (lines 642–650).  If the image changed while the call was
out, the result is ignored; otherwise it is written to the cache and shown.
`save_result` cannot raise, so the error branch is unreachable (it would be
caught at line 652). -/
def worker_complete (fs : FS) (api : ApiCall) (now : String) (s : ViewerState)
    (target : String) : ViewerState :=
  if s.inFlight.contains target then
    let s := { s with inFlight := s.inFlight.erase target }
    let has_exif := fs.hasExifCam target
    let has_location := fs.hasExifGPS target
    let result := analyze_image api target has_exif has_location
    if s.current_image_path = some target then
      match save_result fs now s.cache target result with
      | Except.ok cache' => { s with cache := cache', displayed := some (target, result) }
      | Except.error _ => s
    else s
  else s

/-- One step of the scheduler's event loop.  `now` timestamps any cache
write made by a completion; it is an uninterpreted label. -/
def step (fs : FS) (api : ApiCall) (now : String) (s : ViewerState) : Event → ViewerState
  | Event.select p => load_image fs s p
  | Event.timerFire tid => timer_fire s tid
  | Event.complete t => worker_complete fs api now s t

/-- Run a sequence of events from a state. -/
def runTrace (fs : FS) (api : ApiCall) (now : String) (s : ViewerState)
    (es : List Event) : ViewerState :=
  es.foldl (step fs api now) s

/-- A freshly constructed viewer (`PhotoViewer.__init__`, lines 31–42) over a
given cache manager state. -/
def initViewer (has_api_key : Bool) (cm : CacheManager) : ViewerState :=
  { has_api_key := has_api_key, current_image_path := none,
    analyzing_image_path := none, analysis_timer := none, timers := [],
    nextTimerId := 0, inFlight := [], cache := cm, displayed := none,
    analyzeLog := [] }

/-! ## Concrete fixtures used by witnesses and counterexamples -/

/-- A cache manager freshly constructed with no durable file. -/
def cmEmpty : CacheManager :=
  { memory_cache := [], durable := FileContent.missing, flushes := 0 }

/-- Concrete filesystem: `x.jpg` and `y.jpg` are readable images with no
embedded camera or GPS metadata; every other path is unreadable. -/
def fsW : FS :=
  { statOf := fun p =>
      if p = "x.jpg" then some { size := 100, mtime := "1700000000.0" }
      else if p = "y.jpg" then some { size := 200, mtime := "1700000001.0" }
      else none,
    hasExifCam := fun _ => false,
    hasExifGPS := fun _ => false,
    openOk := fun _ => true }

/-- Same filesystem as `fsW` except the exif reader reports camera tags;
stats agree with `fsW` everywhere. -/
def fsW2 : FS := { fsW with hasExifCam := fun _ => true }

/-- Filesystem on which a relative and an absolute-style path string denote
the same file: both stat to the identical size and mtime. -/
def fsC4 : FS :=
  { statOf := fun p =>
      if p = "a.jpg" ∨ p = "./a.jpg" then some { size := 100, mtime := "1700000000.0" }
      else none,
    hasExifCam := fun _ => false,
    hasExifGPS := fun _ => false,
    openOk := fun _ => true }

/-- An external call that always fails. -/
def apiFail : ApiCall := fun _ _ _ => Except.error "boom"

/-- A sample successful analysis result. -/
def rW : AnalysisResult :=
  { hashtags := ["sunset"], camera_settings := [], location := [], error := none }

/-- Wrapper around `save_result` with its (always-`ok`) `Except` layer stripped, for
iterating insertions. -/
def putOnce (fs : FS) (now : String) (p : String) (r : AnalysisResult)
    (cm : CacheManager) : CacheManager :=
  match save_result fs now cm p r with
  | Except.ok cm' => cm'
  | Except.error _ => cm

/-! ## Sanity checks of the md5 embedding against RFC 1321 test vectors -/

set_option maxRecDepth 40000 in
/-- RFC 1321 test vector: md5 of the empty string. -/
theorem md5hex_empty : md5hex (utf8 "") = "d41d8cd98f00b204e9800998ecf8427e" := by
  decide

set_option maxRecDepth 40000 in
/-- RFC 1321 test vector: md5 of `"abc"`. -/
theorem md5hex_abc : md5hex (utf8 "abc") = "900150983cd24fb0d6963f7d28e17f72" := by
  decide

/-! ## Generic lemmas about the dict model -/

/-- A cons whose key differs is skipped by lookup. -/
theorem dictGet_cons_neg (a : String × CacheEntry) (m : List (String × CacheEntry))
    (k : String) (h : (a.1 == k) = false) : dictGet (a :: m) k = dictGet m k := by
  simp only [dictGet, List.find?_cons, h]

/-- A cons whose key matches is returned by lookup. -/
theorem dictGet_cons_pos (a : String × CacheEntry) (m : List (String × CacheEntry))
    (k : String) (h : (a.1 == k) = true) : dictGet (a :: m) k = some a.2 := by
  simp only [dictGet, List.find?_cons, h]

/-- Reading back an appended fresh key yields its value. -/
theorem dictGet_append_fresh (m : List (String × CacheEntry)) (k : String)
    (v : CacheEntry) (h : m.any (fun kv => kv.1 == k) = false) :
    dictGet (m ++ [(k, v)]) k = some v := by
  induction m with
  | nil => simp [dictGet, List.find?]
  | cons a m ih =>
    rw [List.any_cons] at h
    rcases Bool.or_eq_false_iff.mp h with ⟨h1, h2⟩
    rw [List.cons_append, dictGet_cons_neg a _ k h1]
    exact ih h2

/-- Reading back an overwritten key yields the new value. -/
theorem dictGet_overwrite (m : List (String × CacheEntry)) (k : String)
    (v : CacheEntry) (h : m.any (fun kv => kv.1 == k) = true) :
    dictGet (m.map (fun kv => if kv.1 == k then (k, v) else kv)) k = some v := by
  induction m with
  | nil => simp at h
  | cons a m ih =>
    rw [List.any_cons] at h
    cases hk : (a.1 == k) with
    | true =>
      have : (if (a.1 == k) = true then (k, v) else a) = (k, v) := by rw [if_pos hk]
      rw [List.map_cons]
      simp only [hk, if_true]
      exact dictGet_cons_pos (k, v) _ k (by simp)
    | false =>
      rw [hk, Bool.false_or] at h
      rw [List.map_cons]
      simp only [hk, Bool.false_eq_true, if_false]
      rw [dictGet_cons_neg a _ k hk]
      exact ih h

/-- Inserting a key and reading it back yields the inserted value. -/
theorem dictGet_dictInsert_self (m : List (String × CacheEntry)) (k : String)
    (v : CacheEntry) : dictGet (dictInsert m k v) k = some v := by
  by_cases h : m.any (fun kv => kv.1 == k) = true
  · unfold dictInsert
    rw [if_pos h]
    exact dictGet_overwrite m k v h
  · have h' : m.any (fun kv => kv.1 == k) = false := by
      cases hb : m.any (fun kv => kv.1 == k) with
      | false => rfl
      | true => exact absurd hb h
    unfold dictInsert
    rw [if_neg (by simp [h'])]
    exact dictGet_append_fresh m k v h'

/-- Flushing via `save_cache` does not touch the in-memory dict. -/
theorem save_cache_memory (cm : CacheManager) :
    (save_cache cm).memory_cache = cm.memory_cache := rfl

deriving instance DecidableEq for Except

/-- Lifting by `pure` on the exception monad is `Except.ok`. -/
theorem exceptPure_eq_ok {α : Type} (a : α) :
    (pure a : Except String α) = Except.ok a := rfl

/-- Binding a successful computation applies the continuation. -/
theorem exceptOk_bind {α β : Type} (a : α) (f : α → Except String β) :
    (Except.ok a >>= f : Except String β) = f a := rfl

/-- Binding a failed computation propagates the exception. -/
theorem exceptError_bind {α β : Type} (e : String) (f : α → Except String β) :
    (Except.error e >>= f : Except String β) = Except.error e := rfl

/-- Helper: on a readable path, `save_result` succeeds, inserts the entry
under the md5 fingerprint, and flushes exactly when the dict size after the
insertion is a multiple of 10. -/
theorem save_result_ok (fs : FS) (now : String) (cm : CacheManager)
    (p : String) (r : AnalysisResult) (st : FileStat)
    (h : os_stat fs p = Except.ok st) :
    ∃ cm', save_result fs now cm p r = Except.ok cm' ∧
      cm'.memory_cache = dictInsert cm.memory_cache (md5hex (utf8 (hash_input p st)))
        { file_path := p, file_name := basename p, result := r,
          timestamp := now, version := "1.0" } ∧
      ((cm'.memory_cache.length % 10 = 0 →
          cm'.flushes = cm.flushes + 1 ∧
          cm'.durable = FileContent.wellFormed cm'.memory_cache) ∧
       (cm'.memory_cache.length % 10 ≠ 0 →
          cm'.flushes = cm.flushes ∧ cm'.durable = cm.durable)) := by
  have hh : get_file_hash fs p =
      Except.ok (some (md5hex (utf8 (hash_input p st)))) := by
    simp [get_file_hash, pyTry, h, exceptPure_eq_ok, exceptOk_bind, exceptError_bind]
  set entry : CacheEntry :=
    { file_path := p, file_name := basename p, result := r,
      timestamp := now, version := "1.0" } with hentry
  set mem := dictInsert cm.memory_cache (md5hex (utf8 (hash_input p st))) entry
    with hmem
  by_cases hmod : mem.length % 10 = 0
  · refine ⟨save_cache { cm with memory_cache := mem }, ?_, rfl, ?_, ?_⟩
    · simp [save_result, hh, exceptOk_bind, exceptError_bind, exceptPure_eq_ok, ← hentry, ← hmem, hmod]
    · intro _; exact ⟨rfl, rfl⟩
    · intro hn; exact absurd hmod hn
  · refine ⟨{ cm with memory_cache := mem }, ?_, rfl, ?_, ?_⟩
    · simp [save_result, hh, exceptOk_bind, exceptError_bind, exceptPure_eq_ok, ← hentry, ← hmem, hmod]
    · intro hm; exact absurd hm hmod
    · intro _; exact ⟨rfl, rfl⟩

set_option maxRecDepth 400000 in
/-- C3: refuted as stated.  The source flushes when `len(memory_cache) % 10
== 0` (line 95), which counts the *size of the dict*, not the ordinal of the
insertion.  Ten successful insertions of the same unchanged file keep the
dict at size 1, so the 10th insertion — an ordinal multiple of 10 — never
writes the durable file: zero flushes happen and the file stays absent. -/
theorem C3_counterexample :
    ((putOnce fsW "now" "x.jpg" rW)^[10] cmEmpty).flushes = 0 ∧
    ((putOnce fsW "now" "x.jpg" rW)^[10] cmEmpty).durable = FileContent.missing ∧
    ((putOnce fsW "now" "x.jpg" rW)^[10] cmEmpty).memory_cache.length = 1 := by
  decide

/-- C3 (amended): an insertion by `save_result` on a readable path flushes
the whole map to the durable file exactly when the size of the in-memory map
after the insertion is a multiple of 10 (which coincides with every 10th
insertion only for a fresh store receiving distinct keys); otherwise the
durable file is untouched. -/
theorem C3_flush_on_size_multiple_of_ten (fs : FS) (now : String)
    (cm : CacheManager) (p : String) (r : AnalysisResult) (st : FileStat)
    (h : os_stat fs p = Except.ok st) :
    ∃ cm', save_result fs now cm p r = Except.ok cm' ∧
      (cm'.memory_cache.length % 10 = 0 →
        cm'.flushes = cm.flushes + 1 ∧
        cm'.durable = FileContent.wellFormed cm'.memory_cache) ∧
      (cm'.memory_cache.length % 10 ≠ 0 →
        cm'.flushes = cm.flushes ∧ cm'.durable = cm.durable) := by
  obtain ⟨cm', h1, _, h3⟩ := save_result_ok fs now cm p r st h
  exact ⟨cm', h1, h3⟩

/-- Witness for the amended C3 at a concrete readable file. -/
theorem C3_witness :
    os_stat fsW "x.jpg" = Except.ok { size := 100, mtime := "1700000000.0" } ∧
    (∃ cm', save_result fsW "now" cmEmpty "x.jpg" rW = Except.ok cm' ∧
      (cm'.memory_cache.length % 10 = 0 →
        cm'.flushes = cmEmpty.flushes + 1 ∧
        cm'.durable = FileContent.wellFormed cm'.memory_cache) ∧
      (cm'.memory_cache.length % 10 ≠ 0 →
        cm'.flushes = cmEmpty.flushes ∧ cm'.durable = cmEmpty.durable)) :=
  ⟨rfl, C3_flush_on_size_multiple_of_ten fsW "now" cmEmpty "x.jpg" rW
    { size := 100, mtime := "1700000000.0" } rfl⟩

set_option maxRecDepth 400000 in
/-- C4: refuted as stated.  `_get_file_hash` interpolates the path string
exactly as passed (line 58) — it never canonicalises to an absolute path —
so a relative and an absolute-style spelling of the same file (identical
size and mtime, as `fsC4` stats both spellings identically) get different
md5 fingerprints. -/
theorem C4_counterexample :
    get_file_hash fsC4 "a.jpg" ≠ get_file_hash fsC4 "./a.jpg" := by
  decide

/-- C4 (amended): the fingerprint is a deterministic function of the triple
(path string as passed, byte size, mtime): any two stat reads that agree on
the path's stat produce the same fingerprint — but distinct path strings for
the same file produce distinct fingerprints (see the counterexample). -/
theorem C4_fingerprint_deterministic (fs1 fs2 : FS) (p : String)
    (h : fs1.statOf p = fs2.statOf p) :
    get_file_hash fs1 p = get_file_hash fs2 p := by
  simp [get_file_hash, os_stat, h]

/-- Witness for the amended C4: two filesystems agreeing on `x.jpg`'s stat
(but differing elsewhere) produce the same fingerprint. -/
theorem C4_witness :
    fsW.statOf "x.jpg" = fsW2.statOf "x.jpg" ∧
    get_file_hash fsW "x.jpg" = get_file_hash fsW2 "x.jpg" :=
  ⟨rfl, C4_fingerprint_deterministic fsW fsW2 "x.jpg" rfl⟩

/-- C5: refuted as stated.  The claim says fingerprint computation *raises*
`IOError` on an unreadable path; in the source `_get_file_hash` catches the
stat exception (lines 60–62) and returns `None` — the call completes
normally with no value rather than raising.  (Had it raised, the callers,
which have no `try/except`, would crash.) -/
theorem C5_counterexample : get_file_hash fsW "bad" = Except.ok none := by
  rfl

/-- C5 (amended): on an unreadable path the stat's `IOError` is caught inside
`_get_file_hash`, which signals failure by returning no fingerprint, and
`get_cached_result` treats that as "no cache entry possible": the lookup
yields absent without raising. -/
theorem C5_unreadable_lookup_absent (fs : FS) (p e : String)
    (cm : CacheManager) (h : os_stat fs p = Except.error e) :
    get_file_hash fs p = Except.ok none ∧
    get_cached_result fs cm p = Except.ok none := by
  constructor
  · simp [get_file_hash, pyTry, h, exceptPure_eq_ok, exceptOk_bind, exceptError_bind]
  · simp [get_cached_result, get_file_hash, pyTry, h, exceptPure_eq_ok, exceptOk_bind, exceptError_bind]

/-- Witness for the amended C5 at a concrete unreadable path. -/
theorem C5_witness :
    os_stat fsW "bad" = Except.error "OSError: stat bad" ∧
    (get_file_hash fsW "bad" = Except.ok none ∧
     get_cached_result fsW cmEmpty "bad" = Except.ok none) :=
  ⟨rfl, C5_unreadable_lookup_absent fsW "bad" "OSError: stat bad" cmEmpty rfl⟩

/-- C6: cache round-trip.  For a path whose stat does not change between the
two operations (both run against the same filesystem state `fs`), a
`save_result` followed by `get_cached_result` returns exactly the stored
result. -/
theorem C6_cache_roundtrip (fs : FS) (now : String) (cm : CacheManager)
    (p : String) (r : AnalysisResult) (st : FileStat)
    (h : os_stat fs p = Except.ok st) :
    ∃ cm', save_result fs now cm p r = Except.ok cm' ∧
      get_cached_result fs cm' p = Except.ok (some r) := by
  have hh : get_file_hash fs p =
      Except.ok (some (md5hex (utf8 (hash_input p st)))) := by
    simp [get_file_hash, pyTry, h, exceptPure_eq_ok, exceptOk_bind, exceptError_bind]
  obtain ⟨cm', h1, h2, _⟩ := save_result_ok fs now cm p r st h
  refine ⟨cm', h1, ?_⟩
  have hget : dictGet cm'.memory_cache (md5hex (utf8 (hash_input p st))) =
      some { file_path := p, file_name := basename p, result := r,
             timestamp := now, version := "1.0" } := by
    rw [h2]; exact dictGet_dictInsert_self _ _ _
  simp [get_cached_result, hh, hget, exceptOk_bind, exceptError_bind, exceptPure_eq_ok]

/-- Witness for C6 at a concrete readable file. -/
theorem C6_witness :
    os_stat fsW "y.jpg" = Except.ok { size := 200, mtime := "1700000001.0" } ∧
    (∃ cm', save_result fsW "now" cmEmpty "y.jpg" rW = Except.ok cm' ∧
      get_cached_result fsW cm' "y.jpg" = Except.ok (some rW)) :=
  ⟨rfl, C6_cache_roundtrip fsW "now" cmEmpty "y.jpg" rW
    { size := 200, mtime := "1700000001.0" } rfl⟩

/-- C7: a malformed durable cache file degrades to an empty store.
Construction completes normally (no raised error), the in-memory map is
empty, and every subsequent lookup — for any path on any filesystem —
returns absent. -/
theorem C7_corrupt_cache_recovers (raw : String) (fs : FS) (p : String) :
    ∃ cm, cacheManager_init (FileContent.corrupt raw) = Except.ok cm ∧
      cm.memory_cache = [] ∧ get_cached_result fs cm p = Except.ok none := by
  refine ⟨_, rfl, rfl, ?_⟩
  rcases hs : fs.statOf p with _ | st <;>
    simp [get_cached_result, get_file_hash, pyTry, os_stat, hs,
          cacheManager_init, load_cache_mem, dictGet, exceptOk_bind,
          exceptError_bind, exceptPure_eq_ok]

/-- C8: `save_result` is a no-op when fingerprinting fails.  On a path whose
stat raises, it returns before building the entry: the in-memory map, the
durable file and the flush count are exactly what they were. -/
theorem C8_put_noop_on_stat_failure (fs : FS) (now : String)
    (cm : CacheManager) (p : String) (r : AnalysisResult) (e : String)
    (h : os_stat fs p = Except.error e) :
    save_result fs now cm p r = Except.ok cm := by
  simp [save_result, get_file_hash, pyTry, h, exceptOk_bind, exceptError_bind, exceptPure_eq_ok]

/-- Witness for C8 at a concrete unreadable path. -/
theorem C8_witness :
    os_stat fsW "bad" = Except.error "OSError: stat bad" ∧
    save_result fsW "now" cmEmpty "bad" rW = Except.ok cmEmpty :=
  ⟨rfl, C8_put_noop_on_stat_failure fsW "now" cmEmpty "bad" rW
    "OSError: stat bad" rfl⟩

/-- C10: `get_cached_result` is total at the public interface: for every
path — unreadable, nonexistent or simply absent from the cache — it returns
a value (`some` stored result or `none`) and never propagates an
exception. -/
theorem C10_lookup_never_raises (fs : FS) (cm : CacheManager) (p : String) :
    ∃ v, get_cached_result fs cm p = Except.ok v := by
  rcases hs : fs.statOf p with _ | st
  · exact ⟨none, by simp [get_cached_result, get_file_hash, pyTry, os_stat, hs, exceptOk_bind, exceptError_bind, exceptPure_eq_ok]⟩
  · rcases hg : dictGet cm.memory_cache (md5hex (utf8 (hash_input p st)))
      with _ | entry
    · exact ⟨none, by
        simp [get_cached_result, get_file_hash, pyTry, os_stat, hs, hg,
              exceptOk_bind, exceptError_bind, exceptPure_eq_ok]⟩
    · exact ⟨some entry.result, by
        simp [get_cached_result, get_file_hash, pyTry, os_stat, hs, hg,
              exceptOk_bind, exceptError_bind, exceptPure_eq_ok]⟩

/-! ## Scheduler lemmas and temporal claims -/

/-- C1: staleness discard at completion.  Whenever a background analysis
completes for a target that is no longer the current image
(`analysis_target != current_image_path` at line 643), the completion writes
nothing to the cache and changes nothing in the displayed result. -/
theorem C1_stale_completion_discarded (fs : FS) (api : ApiCall) (now : String)
    (s : ViewerState) (t : String) (h : s.current_image_path ≠ some t) :
    (step fs api now s (Event.complete t)).cache = s.cache ∧
    (step fs api now s (Event.complete t)).displayed = s.displayed := by
  simp only [step, worker_complete]
  by_cases hc : t ∈ s.inFlight
  · simp [hc, h]
  · simp [hc]

/-- A scheduler state in which an analysis for `x.jpg` is in flight but the
user has moved on to `y.jpg`. -/
def vsC1 : ViewerState :=
  { initViewer true cmEmpty with
      current_image_path := some "y.jpg", inFlight := ["x.jpg"] }

/-- Witness for C1: a concrete stale completion leaves cache and display
untouched. -/
theorem C1_witness :
    vsC1.current_image_path ≠ some "x.jpg" ∧
    ((step fsW apiFail "now" vsC1 (Event.complete "x.jpg")).cache = vsC1.cache ∧
     (step fsW apiFail "now" vsC1 (Event.complete "x.jpg")).displayed =
       vsC1.displayed) :=
  ⟨by decide, C1_stale_completion_discarded fsW apiFail "now" vsC1 "x.jpg"
    (by decide)⟩

/-- Scheduler invariant: every pending tk timer is the single one recorded
in `analysis_timer`. -/
def TimerWF (s : ViewerState) : Prop :=
  ∀ t ∈ s.timers, some t.1 = s.analysis_timer

/-- After `_cancel_analysis_timer` no timer handle is recorded. -/
theorem cancel_timer_handle_none (s : ViewerState) :
    (cancel_analysis_timer s).analysis_timer = none := by
  unfold cancel_analysis_timer
  cases h : s.analysis_timer with
  | none => exact h
  | some tid => simp

/-- Under the invariant, `_cancel_analysis_timer` leaves no pending timer. -/
theorem cancel_timer_empties (s : ViewerState) (hwf : TimerWF s) :
    (cancel_analysis_timer s).timers = [] := by
  unfold cancel_analysis_timer
  cases ht : s.analysis_timer with
  | none =>
    cases hts : s.timers with
    | nil => rfl
    | cons a l =>
      exfalso
      have := hwf a (by rw [hts]; exact List.mem_cons_self a l)
      rw [ht] at this
      exact Option.noConfusion this
  | some tid =>
    simp only []
    rw [List.filter_eq_nil_iff]
    intro a ha
    have := hwf a ha
    rw [ht] at this
    simp [Option.some_inj.mp this]

/-- Cancelling (`_cancel_analysis_timer`) leaves the invocation log alone. -/
@[simp] theorem cancel_timer_analyzeLog (s : ViewerState) :
    (cancel_analysis_timer s).analyzeLog = s.analyzeLog := by
  unfold cancel_analysis_timer; cases s.analysis_timer <;> simp

/-- Cancelling (`_cancel_analysis_timer`) leaves the in-flight workers alone. -/
@[simp] theorem cancel_timer_inFlight (s : ViewerState) :
    (cancel_analysis_timer s).inFlight = s.inFlight := by
  unfold cancel_analysis_timer; cases s.analysis_timer <;> simp

/-- Cancelling (`_cancel_analysis_timer`) leaves the cache alone. -/
@[simp] theorem cancel_timer_cache (s : ViewerState) :
    (cancel_analysis_timer s).cache = s.cache := by
  unfold cancel_analysis_timer; cases s.analysis_timer <;> simp

/-- Cancelling (`_cancel_analysis_timer`) leaves the API-key flag alone. -/
@[simp] theorem cancel_timer_api_key (s : ViewerState) :
    (cancel_analysis_timer s).has_api_key = s.has_api_key := by
  unfold cancel_analysis_timer; cases s.analysis_timer <;> simp

/-- Cancelling (`_cancel_analysis_timer`) leaves the timer-id counter alone. -/
@[simp] theorem cancel_timer_nextId (s : ViewerState) :
    (cancel_analysis_timer s).nextTimerId = s.nextTimerId := by
  unfold cancel_analysis_timer; cases s.analysis_timer <;> simp

/-- Cancelling (`_cancel_analysis_timer`) leaves the current image alone. -/
@[simp] theorem cancel_timer_current (s : ViewerState) :
    (cancel_analysis_timer s).current_image_path = s.current_image_path := by
  unfold cancel_analysis_timer; cases s.analysis_timer <;> simp

/-- Scheduling (`_schedule_smart_analysis`) never invokes the analyzer itself: the
invocation log is untouched. -/
@[simp] theorem schedule_analyzeLog (fs : FS) (s : ViewerState) (p : String) :
    (schedule_smart_analysis fs s p).analyzeLog = s.analyzeLog := by
  unfold schedule_smart_analysis
  cases h : get_cached_result fs s.cache p with
  | error e => simp [h]
  | ok v =>
    cases v with
    | none => simp [h]
    | some r =>
      by_cases hcur : s.current_image_path = some p <;> simp [h, hcur]

/-- Scheduling (`_schedule_smart_analysis`) starts no worker: the in-flight set is
untouched. -/
@[simp] theorem schedule_inFlight (fs : FS) (s : ViewerState) (p : String) :
    (schedule_smart_analysis fs s p).inFlight = s.inFlight := by
  unfold schedule_smart_analysis
  cases h : get_cached_result fs s.cache p with
  | error e => simp [h]
  | ok v =>
    cases v with
    | none => simp [h]
    | some r =>
      by_cases hcur : s.current_image_path = some p <;> simp [h, hcur]

/-- Scheduling (`_schedule_smart_analysis`) either leaves the timer state alone (cache
hit) or arms exactly one fresh timer for the scheduled path (cache miss). -/
theorem schedule_timers (fs : FS) (s : ViewerState) (p : String) :
    ((schedule_smart_analysis fs s p).timers = s.timers ∧
     (schedule_smart_analysis fs s p).analysis_timer = s.analysis_timer) ∨
    ((schedule_smart_analysis fs s p).timers = s.timers ++ [(s.nextTimerId, p)] ∧
     (schedule_smart_analysis fs s p).analysis_timer = some s.nextTimerId) := by
  unfold schedule_smart_analysis
  cases h : get_cached_result fs s.cache p with
  | error e => left; simp [h]
  | ok v =>
    cases v with
    | none => right; simp [h]
    | some r =>
      left
      by_cases hcur : s.current_image_path = some p <;> simp [h, hcur]

/-- Selection (`load_image`) invokes no analyzer and starts no worker. -/
theorem load_image_log_inflight (fs : FS) (s : ViewerState) (p : String) :
    (load_image fs s p).analyzeLog = s.analyzeLog ∧
    (load_image fs s p).inFlight = s.inFlight := by
  unfold load_image immediate_reset
  constructor <;>
    simp [apply_ite ViewerState.analyzeLog, apply_ite ViewerState.inFlight]

/-- After `load_image`, every pending timer targets the loaded path and the
single-timer invariant still holds. -/
theorem load_image_timers (fs : FS) (s : ViewerState) (p : String)
    (hwf : TimerWF s) :
    TimerWF (load_image fs s p) ∧
    ∀ t ∈ (load_image fs s p).timers, t.2 = p := by
  have hemp := cancel_timer_empties s hwf
  have hnone := cancel_timer_handle_none s
  unfold load_image immediate_reset
  dsimp only
  split
  · split
    · split
      · rcases schedule_timers fs
          { cancel_analysis_timer s with
            current_image_path := some p,
            analyzing_image_path := none, displayed := none } p with
          ⟨h1, h2⟩ | ⟨h1, h2⟩
        · constructor
          · intro t ht
            rw [h1] at ht
            simp only [hemp] at ht
            exact absurd ht (List.not_mem_nil t)
          · intro t ht
            rw [h1] at ht
            simp only [hemp] at ht
            exact absurd ht (List.not_mem_nil t)
        · constructor
          · intro t ht
            rw [h1] at ht
            simp only [hemp, List.nil_append, List.mem_singleton] at ht
            rw [h2, ht]
          · intro t ht
            rw [h1] at ht
            simp only [hemp, List.nil_append, List.mem_singleton] at ht
            rw [ht]
      · constructor
        · intro t ht
          simp only [hemp] at ht
          exact absurd ht (List.not_mem_nil t)
        · intro t ht
          simp only [hemp] at ht
          exact absurd ht (List.not_mem_nil t)
    · constructor
      · intro t ht
        simp only [hemp] at ht
        exact absurd ht (List.not_mem_nil t)
      · intro t ht
        simp only [hemp] at ht
        exact absurd ht (List.not_mem_nil t)
  · constructor
    · intro t ht
      simp only [hemp] at ht
      exact absurd ht (List.not_mem_nil t)
    · intro t ht
      simp only [hemp] at ht
      exact absurd ht (List.not_mem_nil t)

/-- All paths the scheduler still tracks — pending timers, logged analyzer
invocations, in-flight workers — equal `C`. -/
def OnlyC (C : String) (s : ViewerState) : Prop :=
  (∀ t ∈ s.timers, t.2 = C) ∧ (∀ q ∈ s.analyzeLog, q = C) ∧
  (∀ q ∈ s.inFlight, q = C)

/-- A timer firing preserves `OnlyC`: it can only start (and log) an
analysis for a path that was carried by a pending timer. -/
theorem timer_fire_onlyC (C : String) (s : ViewerState) (tid : Nat)
    (h : OnlyC C s) : OnlyC C (timer_fire s tid) := by
  obtain ⟨h1, h2, h3⟩ := h
  have hfil : ∀ x ∈ s.timers.filter (fun x => decide (x.1 ≠ tid)), x.2 = C :=
    fun x hx => h1 x (List.mem_of_mem_filter hx)
  unfold timer_fire
  cases hf : s.timers.find? (fun t => t.1 == tid) with
  | none => exact ⟨h1, h2, h3⟩
  | some t =>
    have htC : t.2 = C := h1 t (List.mem_of_find?_eq_some hf)
    dsimp only
    by_cases hcur : s.current_image_path ≠ some t.2
    · rw [if_pos hcur]
      exact ⟨hfil, h2, h3⟩
    · rw [if_neg hcur]
      cases ha : s.analyzing_image_path with
      | none => exact ⟨hfil, h2, h3⟩
      | some target =>
        dsimp only
        by_cases h4 : some target ≠ s.current_image_path
        · rw [if_pos h4]
          exact ⟨hfil, h2, h3⟩
        · rw [if_neg h4]
          rw [not_not] at hcur h4
          have htarget : target = C := by
            have : some target = some t.2 := by rw [h4, hcur]
            rw [Option.some_inj.mp this]; exact htC
          refine ⟨hfil, ?_, ?_⟩
          · intro q hq
            rcases List.mem_append.mp hq with hq | hq
            · exact h2 q hq
            · rw [List.mem_singleton.mp hq]; exact htarget
          · intro q hq
            rcases List.mem_append.mp hq with hq | hq
            · exact h3 q hq
            · rw [List.mem_singleton.mp hq]; exact htarget

/-- A completion preserves `OnlyC`: it logs nothing, arms nothing, and only
removes an in-flight worker. -/
theorem worker_complete_onlyC (fs : FS) (api : ApiCall) (now : String)
    (C : String) (s : ViewerState) (t : String) (h : OnlyC C s) :
    OnlyC C (worker_complete fs api now s t) := by
  obtain ⟨h1, h2, h3⟩ := h
  have herase : ∀ q ∈ s.inFlight.erase t, q = C :=
    fun q hq => h3 q (List.mem_of_mem_erase hq)
  unfold worker_complete
  by_cases hc : s.inFlight.contains t = true
  · rw [if_pos hc]
    dsimp only
    by_cases hcur : s.current_image_path = some t
    · rw [if_pos hcur]
      cases save_result fs now s.cache t
          (analyze_image api t (fs.hasExifCam t) (fs.hasExifGPS t)) with
      | ok cache' => exact ⟨h1, h2, herase⟩
      | error e => exact ⟨h1, h2, herase⟩
    · rw [if_neg hcur]
      exact ⟨h1, h2, herase⟩
  · rw [if_neg hc]
    exact ⟨h1, h2, h3⟩

/-- Events other than a selection. -/
def eventNotSelect : Event → Bool
  | Event.select _ => false
  | Event.timerFire _ => true
  | Event.complete _ => true

/-- Invariant `OnlyC` is preserved by any run of non-selection events. -/
theorem runTrace_onlyC (fs : FS) (api : ApiCall) (now : String) (C : String) :
    ∀ (es : List Event) (s : ViewerState), es.all eventNotSelect = true →
      OnlyC C s → OnlyC C (runTrace fs api now s es) := by
  intro es
  induction es with
  | nil => intro s _ h; exact h
  | cons e es ih =>
    intro s hall h
    rw [List.all_cons, Bool.and_eq_true] at hall
    obtain ⟨he, hes⟩ := hall
    have hstep : OnlyC C (step fs api now s e) := by
      cases e with
      | select p => simp [eventNotSelect] at he
      | timerFire tid => exact timer_fire_onlyC C s tid h
      | complete t => exact worker_complete_onlyC fs api now C s t h
    exact ih (step fs api now s e) hes hstep

/-- C2: rapid navigation `A`, `B`, `C` with no timer firing in between
(selections faster than the delay) — each selection unconditionally cancels
the previously armed timer, so however the run continues without further
selections, every still-pending timer targets `C` and the external analyzer
is never invoked for `A` or `B`. -/
theorem C2_debounce_suppresses_skipped (fs : FS) (api : ApiCall)
    (now : String) (hk : Bool) (cm : CacheManager) (A B C : String)
    (es : List Event) (hes : es.all eventNotSelect = true)
    (hA : A ≠ C) (hB : B ≠ C) :
    A ∉ (runTrace fs api now (initViewer hk cm)
          (Event.select A :: Event.select B :: Event.select C :: es)).analyzeLog ∧
    B ∉ (runTrace fs api now (initViewer hk cm)
          (Event.select A :: Event.select B :: Event.select C :: es)).analyzeLog ∧
    ∀ t ∈ (runTrace fs api now (initViewer hk cm)
          (Event.select A :: Event.select B :: Event.select C :: es)).timers,
      t.2 = C := by
  have hwf0 : TimerWF (initViewer hk cm) := by
    intro t ht; simp [initViewer] at ht
  have hwf1 := (load_image_timers fs (initViewer hk cm) A hwf0).1
  have hwf2 := (load_image_timers fs (load_image fs (initViewer hk cm) A) B hwf1).1
  have h3 := load_image_timers fs
    (load_image fs (load_image fs (initViewer hk cm) A) B) C hwf2
  have hlog3 :
      (load_image fs (load_image fs (load_image fs (initViewer hk cm) A) B)
        C).analyzeLog = [] := by
    rw [(load_image_log_inflight fs _ C).1, (load_image_log_inflight fs _ B).1,
        (load_image_log_inflight fs _ A).1]
    rfl
  have hinf3 :
      (load_image fs (load_image fs (load_image fs (initViewer hk cm) A) B)
        C).inFlight = [] := by
    rw [(load_image_log_inflight fs _ C).2, (load_image_log_inflight fs _ B).2,
        (load_image_log_inflight fs _ A).2]
    rfl
  have honly : OnlyC C
      (load_image fs (load_image fs (load_image fs (initViewer hk cm) A) B) C) := by
    refine ⟨h3.2, ?_, ?_⟩
    · intro q hq; rw [hlog3] at hq; exact absurd hq (List.not_mem_nil q)
    · intro q hq; rw [hinf3] at hq; exact absurd hq (List.not_mem_nil q)
  have hres := runTrace_onlyC fs api now C es
    (load_image fs (load_image fs (load_image fs (initViewer hk cm) A) B) C)
    hes honly
  exact ⟨fun hmem => hA (hres.2.1 A hmem), fun hmem => hB (hres.2.1 B hmem),
         hres.1⟩

/-- Witness for C2: three rapid selections followed by a timer firing and a
completion, at concrete paths. -/
theorem C2_witness :
    ([Event.timerFire 2, Event.complete "c"].all eventNotSelect = true) ∧
    ("a" ≠ "c") ∧ ("b" ≠ "c") ∧
    ("a" ∉ (runTrace fsW apiFail "now" (initViewer true cmEmpty)
        (Event.select "a" :: Event.select "b" :: Event.select "c" ::
          [Event.timerFire 2, Event.complete "c"])).analyzeLog ∧
     "b" ∉ (runTrace fsW apiFail "now" (initViewer true cmEmpty)
        (Event.select "a" :: Event.select "b" :: Event.select "c" ::
          [Event.timerFire 2, Event.complete "c"])).analyzeLog ∧
     ∀ t ∈ (runTrace fsW apiFail "now" (initViewer true cmEmpty)
        (Event.select "a" :: Event.select "b" :: Event.select "c" ::
          [Event.timerFire 2, Event.complete "c"])).timers, t.2 = "c") :=
  ⟨by decide, by decide, by decide,
   C2_debounce_suppresses_skipped fsW apiFail "now" true cmEmpty "a" "b" "c"
     [Event.timerFire 2, Event.complete "c"] (by decide) (by decide)
     (by decide)⟩

/-- C9: a failing external call is cached like a success.  `analyze_image`
catches the failure and returns the error dictionary (it does not raise);
the completion, with the target still current, writes that error result to
the cache and displays it; a second selection of the same unchanged file is
a cache hit on the error result: no timer is armed, nothing is in flight,
and the analyzer was invoked exactly once in the whole run. -/
theorem C9_error_result_cached (fs : FS) (api : ApiCall) (now : String)
    (X : String) (st : FileStat) (e : String)
    (hopen : fs.openOk X = true)
    (hstat : fs.statOf X = some st)
    (hexif : (!fs.hasExifCam X || !fs.hasExifGPS X) = true)
    (hapi : api X (fs.hasExifCam X) (fs.hasExifGPS X) = Except.error e) :
    (runTrace fs api now (initViewer true cmEmpty)
        [Event.select X, Event.timerFire 0, Event.complete X,
         Event.select X]).analyzeLog = [X] ∧
    (runTrace fs api now (initViewer true cmEmpty)
        [Event.select X, Event.timerFire 0, Event.complete X,
         Event.select X]).timers = [] ∧
    (runTrace fs api now (initViewer true cmEmpty)
        [Event.select X, Event.timerFire 0, Event.complete X,
         Event.select X]).inFlight = [] ∧
    (runTrace fs api now (initViewer true cmEmpty)
        [Event.select X, Event.timerFire 0, Event.complete X,
         Event.select X]).displayed = some (X,
      { hashtags := [], camera_settings := [], location := [],
        error := some e }) ∧
    get_cached_result fs (runTrace fs api now (initViewer true cmEmpty)
        [Event.select X, Event.timerFire 0, Event.complete X,
         Event.select X]).cache X = Except.ok (some
      { hashtags := [], camera_settings := [], location := [],
        error := some e }) := by
  simp only [runTrace, List.foldl, step]
  simp [load_image, cancel_analysis_timer, immediate_reset,
        schedule_smart_analysis, timer_fire, worker_complete, analyze_image,
        save_result, get_cached_result, get_file_hash, pyTry, os_stat,
        initViewer, cmEmpty, hopen, hstat, hexif, hapi, dictGet, dictInsert,
        basename, exceptOk_bind, exceptError_bind, exceptPure_eq_ok,
        List.find?, save_cache]

/-- Witness for C9: a concrete failing analysis of `x.jpg` whose error
result ends up cached and displayed, with no re-analysis on reselection. -/
theorem C9_witness :
    fsW.openOk "x.jpg" = true ∧
    fsW.statOf "x.jpg" = some { size := 100, mtime := "1700000000.0" } ∧
    (!fsW.hasExifCam "x.jpg" || !fsW.hasExifGPS "x.jpg") = true ∧
    apiFail "x.jpg" (fsW.hasExifCam "x.jpg") (fsW.hasExifGPS "x.jpg") =
      Except.error "boom" ∧
    ((runTrace fsW apiFail "now" (initViewer true cmEmpty)
        [Event.select "x.jpg", Event.timerFire 0, Event.complete "x.jpg",
         Event.select "x.jpg"]).analyzeLog = ["x.jpg"] ∧
     (runTrace fsW apiFail "now" (initViewer true cmEmpty)
        [Event.select "x.jpg", Event.timerFire 0, Event.complete "x.jpg",
         Event.select "x.jpg"]).timers = [] ∧
     (runTrace fsW apiFail "now" (initViewer true cmEmpty)
        [Event.select "x.jpg", Event.timerFire 0, Event.complete "x.jpg",
         Event.select "x.jpg"]).inFlight = [] ∧
     (runTrace fsW apiFail "now" (initViewer true cmEmpty)
        [Event.select "x.jpg", Event.timerFire 0, Event.complete "x.jpg",
         Event.select "x.jpg"]).displayed = some ("x.jpg",
       { hashtags := [], camera_settings := [], location := [],
         error := some "boom" }) ∧
     get_cached_result fsW (runTrace fsW apiFail "now" (initViewer true cmEmpty)
        [Event.select "x.jpg", Event.timerFire 0, Event.complete "x.jpg",
         Event.select "x.jpg"]).cache "x.jpg" = Except.ok (some
       { hashtags := [], camera_settings := [], location := [],
         error := some "boom" })) :=
  ⟨rfl, rfl, rfl, rfl,
   C9_error_result_cached fsW apiFail "now" "x.jpg"
     { size := 100, mtime := "1700000000.0" } "boom" rfl rfl rfl rfl⟩
